import Mathlib

/-!
Verification development for the SpellTable encounter-balancing engine
(`backend/app/services/hit_dice_service.py`, `monster_service.py`,
`encounter_service.py` and the models they use).

The Python code is shallowly embedded: pure functions become Lean functions,
the monster catalog's mutable singleton state becomes explicit state passing,
Python `int` becomes `Int`/`Nat`, `random.randint` draws are modelled by an
oracle stream `g : Nat → Nat` normalised into the requested interval, and
raised exceptions become `Except` errors.  `challenge.xp` is declared `float`
in the Python model but holds integral XP values; on those, and on the
`×0.5`-step multiplier products taken of them, Python float arithmetic is
exact, so XP arithmetic is embedded over `Int` (with the one float product,
`total_xp * multiplier`, carried out exactly in doubled units), and the
specification-side statements about the real-valued multiplier step function
are phrased over `Rat`.
-/

namespace SpellTable

/-! ## Dice model (`backend/app/models/die.py`) -/

structure Die where
  faces : Nat
deriving DecidableEq, Repr

structure DiePool where
  count : Nat
  die : Die
deriving DecidableEq, Repr

/-- The value returned by `HitDiceService.parse_hit_dice`: the dict
`{"dice": list[DiePool], "modifier": int}`. -/
structure HitDiceExpression where
  dice : List DiePool
  modifier : Int
deriving DecidableEq, Repr

/-! ## Tokenization (`HitDiceService.parse_hit_dice`, lines 24-31)

The Python code strips the string, removes spaces, and runs
`re.findall(r"([+-]?\d+d\d+|[+-]?\d+)", expression, re.IGNORECASE)`.
`findall` scans left to right, at each position trying the dice alternative
first and then the plain-number alternative, skipping characters where no
alternative matches.  Because a digit run can never contain the letter `d`,
the backtracking regex is equivalent to: read an optional sign, a maximal
nonempty digit run, and (for the dice alternative) a literal `d`/`D` followed
by another maximal nonempty digit run. -/

/-- The whitespace characters stripped by Python's `str.strip()`
(ASCII whitespace; the embedding restricts Unicode whitespace to ASCII). -/
def isPySpace (c : Char) : Bool :=
  c == ' ' || c == '\t' || c == '\n' || c == '\r' || c == '\x0b' || c == '\x0c'

/-- `str.strip()`. -/
def pyStrip (cs : List Char) : List Char :=
  ((cs.dropWhile isPySpace).reverse.dropWhile isPySpace).reverse

/-- `str.replace(" ", "")`. -/
def removeSpaces (cs : List Char) : List Char :=
  cs.filter (fun c => !(c == ' '))

/-- Decimal value of a digit run, as computed by Python's `int()`. -/
def digitsToNat (ds : List Char) : Nat :=
  ds.foldl (fun acc c => 10 * acc + (c.toNat - '0'.toNat)) 0

/-- A token produced by the `findall` scan: either a signed `<count>d<faces>`
dice term (`neg` records a leading `-`) or a signed plain integer. -/
inductive HitDiceToken
  | dice (neg : Bool) (count faces : Nat)
  | num (value : Int)
deriving DecidableEq, Repr

/-- Match one token of `([+-]?\d+d\d+|[+-]?\d+)` directly after an optional
sign already consumed: a maximal digit run, optionally followed by `d`/`D` and
a second maximal digit run.  Returns the token and the unconsumed suffix. -/
def matchAfterSign (neg : Bool) (afterSign : List Char) : Option (HitDiceToken × List Char) :=
  let ds := afterSign.takeWhile Char.isDigit
  let rest := afterSign.dropWhile Char.isDigit
  if ds.isEmpty then none
  else
    let numVal : Int := if neg then -(digitsToNat ds : Int) else (digitsToNat ds : Int)
    match rest with
    | [] => some (.num numVal, [])
    | c :: r2 =>
      if c == 'd' || c == 'D' then
        let ds2 := r2.takeWhile Char.isDigit
        if ds2.isEmpty then some (.num numVal, rest)
        else some (.dice neg (digitsToNat ds) (digitsToNat ds2), r2.dropWhile Char.isDigit)
      else some (.num numVal, rest)

/-- Match one token of `([+-]?\d+d\d+|[+-]?\d+)` anchored at the head of
`cs`, or `none` when no token starts here. -/
def matchToken (cs : List Char) : Option (HitDiceToken × List Char) :=
  match cs with
  | [] => none
  | c :: r =>
    if c == '+' then matchAfterSign false r
    else if c == '-' then matchAfterSign true r
    else matchAfterSign false (c :: r)

theorem length_dropWhile_le (p : Char → Bool) (l : List Char) :
    (l.dropWhile p).length ≤ l.length := by
  induction l with
  | nil => simp
  | cons a as ih =>
    by_cases hp : p a
    · simp only [List.dropWhile_cons, hp, if_true]
      exact Nat.le_succ_of_le ih
    · simp [List.dropWhile_cons, hp]

theorem length_dropWhile_lt_of_takeWhile_ne_nil {p : Char → Bool} {xs : List Char}
    (h : xs.takeWhile p ≠ []) : (xs.dropWhile p).length < xs.length := by
  cases xs with
  | nil => simp at h
  | cons a as =>
    by_cases hp : p a
    · simp only [List.dropWhile_cons, hp, if_true]
      exact Nat.lt_succ_of_le (length_dropWhile_le p as)
    · simp [List.takeWhile_cons, hp] at h

theorem matchAfterSign_length {neg : Bool} {xs : List Char} {t : HitDiceToken}
    {r : List Char} (h : matchAfterSign neg xs = some (t, r)) :
    r.length < xs.length := by
  unfold matchAfterSign at h
  by_cases hds : (xs.takeWhile Char.isDigit).isEmpty
  · simp [hds] at h
  · have hne : xs.takeWhile Char.isDigit ≠ [] := by
      simpa [List.isEmpty_iff] using hds
    have hlt : (xs.dropWhile Char.isDigit).length < xs.length :=
      length_dropWhile_lt_of_takeWhile_ne_nil hne
    rw [if_neg hds] at h
    rcases hrest : xs.dropWhile Char.isDigit with - | ⟨c, r2⟩
    · rw [hrest] at h hlt
      simp only [Option.some.injEq, Prod.mk.injEq] at h
      rw [← h.2]
      simpa using hlt
    · rw [hrest] at h hlt
      dsimp only at h
      by_cases hd : (c == 'd' || c == 'D') = true
      · rw [if_pos hd] at h
        by_cases hds2 : (r2.takeWhile Char.isDigit).isEmpty
        · rw [if_pos hds2] at h
          simp only [Option.some.injEq, Prod.mk.injEq] at h
          rw [← h.2]
          exact hlt
        · rw [if_neg hds2] at h
          simp only [Option.some.injEq, Prod.mk.injEq] at h
          have h2 : (r2.dropWhile Char.isDigit).length ≤ r2.length :=
            length_dropWhile_le _ _
          rw [← h.2]
          simp only [List.length_cons] at hlt
          omega
      · rw [if_neg hd] at h
        simp only [Option.some.injEq, Prod.mk.injEq] at h
        rw [← h.2]
        exact hlt

theorem matchToken_length {cs : List Char} {t : HitDiceToken} {r : List Char}
    (h : matchToken cs = some (t, r)) : r.length < cs.length := by
  match cs with
  | [] => simp [matchToken] at h
  | c :: rest =>
    simp only [matchToken] at h
    by_cases h1 : (c == '+') = true
    · rw [if_pos h1] at h
      have := matchAfterSign_length h
      simp only [List.length_cons]
      omega
    · rw [if_neg h1] at h
      by_cases h2 : (c == '-') = true
      · rw [if_pos h2] at h
        have := matchAfterSign_length h
        simp only [List.length_cons]
        omega
      · rw [if_neg h2] at h
        exact matchAfterSign_length h

/-- `re.findall` over the whole character list: collect non-overlapping
tokens left to right, skipping characters where no token starts.  The
recursion is driven by a fuel parameter so that the definition reduces in the
kernel; `tokenize` below instantiates the fuel with the list length, which
`tokenizeFuel_irrelevant` shows is always enough. -/
def tokenizeFuel : Nat → List Char → List HitDiceToken
  | 0, _ => []
  | _ + 1, [] => []
  | fuel + 1, c :: rest =>
    match matchToken (c :: rest) with
    | some (t, r) => t :: tokenizeFuel fuel r
    | none => tokenizeFuel fuel rest

def tokenize (cs : List Char) : List HitDiceToken :=
  tokenizeFuel cs.length cs

/-- Any fuel of at least the list length gives the same scan, so `tokenize`
is the total left-to-right `findall`. -/
theorem tokenizeFuel_eq_tokenize (f : Nat) : ∀ cs : List Char,
    cs.length ≤ f → tokenizeFuel f cs = tokenize cs := by
  induction f using Nat.strong_induction_on with
  | _ f ih =>
    intro cs h
    cases cs with
    | nil => cases f <;> rfl
    | cons c rest =>
      cases f with
      | zero => simp at h
      | succ k =>
        show _ = tokenizeFuel (rest.length + 1) (c :: rest)
        simp only [tokenizeFuel]
        cases hm : matchToken (c :: rest) with
        | some tr =>
          obtain ⟨t, r⟩ := tr
          dsimp only
          have hlt := matchToken_length hm
          simp only [List.length_cons] at h hlt
          rw [ih k (by omega) r (by omega), ih rest.length (by omega) r (by omega)]
        | none =>
          dsimp only
          simp only [List.length_cons] at h
          rw [ih k (by omega) rest (by omega), ih rest.length (by omega) rest (by omega)]

/-! ## Parsing (`HitDiceService.parse_hit_dice`, lines 33-51) -/

/-- The `ValueError`s raised by `parse_hit_dice`, distinguished by message.
All of them are the spec's `InvalidExpression`. -/
inductive HitDiceError
  | emptyExpression
  | invalidExpression
  | dicePositive
  | negativeDice
deriving DecidableEq, Repr

/-- The token loop of `parse_hit_dice` (lines 36-49): dice terms are appended
to `dice_terms` in order, plain numbers accumulate into `modifier`; a zero
count or faces raises before the sign check (lines 43-46). -/
def parseLoop : List HitDiceToken → List DiePool → Int →
    Except HitDiceError (List DiePool × Int)
  | [], pools, m => .ok (pools, m)
  | .dice neg c f :: ts, pools, m =>
    if c = 0 ∨ f = 0 then .error .dicePositive
    else if neg then .error .negativeDice
    else parseLoop ts (pools ++ [⟨c, ⟨f⟩⟩]) m
  | .num v :: ts, pools, m => parseLoop ts pools (m + v)

/-- `HitDiceService.parse_hit_dice`. -/
def parse_hit_dice (s : String) : Except HitDiceError HitDiceExpression :=
  let cs := removeSpaces (pyStrip s.data)
  if cs = [] then .error .emptyExpression
  else
    let ts := tokenize cs
    if ts = [] then .error .invalidExpression
    else
      match parseLoop ts [] 0 with
      | .error e => .error e
      | .ok (pools, m) => .ok ⟨pools, m⟩

/-! Spec-side descriptions of the parse result, used to state the claims:
the pools listed by the token list in order, the signed sum of its plain
number terms, and the tokens the parse loop rejects. -/

def tokenPools (ts : List HitDiceToken) : List DiePool :=
  ts.filterMap fun t =>
    match t with
    | .dice _ c f => some ⟨c, ⟨f⟩⟩
    | .num _ => none

def tokenModifier : List HitDiceToken → Int
  | [] => 0
  | .num v :: ts => v + tokenModifier ts
  | .dice _ _ _ :: ts => tokenModifier ts

/-- A token on which the parse loop raises: a dice term with a `-` sign or
with zero count or faces. -/
def badToken : HitDiceToken → Bool
  | .dice neg c f => neg || c == 0 || f == 0
  | .num _ => false

deriving instance DecidableEq for Except

/-! ## Hit-dice evaluation

`HitDiceService.evaluate_hit_dice` is invoked at `encounter_service.py`
line 76 but its definition is not among the provided source files (the
`HitDiceService` class in `hit_dice_service.py` only defines
`parse_hit_dice`).  It is therefore modelled from the spec.  Randomness is
an oracle stream `g : Nat → Nat`; the `k`-th draw of a die with `f` faces is
`1 + g k % f`, which for `f ≥ 1` ranges exactly over `[1, f]` as `g` varies. -/

/-- Modelled from the spec: one uniform draw in `[1, faces]`
(spec §4.1, `evaluate`). -/
def rollDie (faces : Nat) (g : Nat → Nat) (i : Nat) : Nat :=
  1 + g i % faces

/-- Modelled from the spec: "For each DicePool, draw `count` independent
uniform random integers in `[1, faces]` and sum them" (spec §4.1), drawing at
consecutive oracle indices starting at `i`. -/
def rollPool : Nat → Nat → (Nat → Nat) → Nat → Nat
  | 0, _, _, _ => 0
  | c + 1, f, g, i => rollDie f g i + rollPool c f g (i + 1)

/-- Modelled from the spec: "sum across all pools" (spec §4.1).  Returns the
summed roll total and the next unused oracle index. -/
def rollPools : List DiePool → (Nat → Nat) → Nat → Nat × Nat
  | [], _, i => (0, i)
  | p :: ps, g, i =>
    let v := rollPool p.count p.die.faces g i
    let (rest, i2) := rollPools ps g (i + p.count)
    (v + rest, i2)

/-- Modelled from the spec: `HitDiceService.evaluate_hit_dice` — the missing
evaluator.  "sum across all pools, then add the flat modifier. Result must
not be reported below 1 …; clamp at 1 if the rolled total plus modifier is
non-positive" (spec §4.1).  Returns the hit-point value and the next unused
oracle index. -/
def evaluate_hit_dice (e : HitDiceExpression) (g : Nat → Nat) (i : Nat) : Int × Nat :=
  let (total, i2) := rollPools e.dice g i
  (max 1 ((total : Int) + e.modifier), i2)

/-! ## Monster catalog (`backend/app/services/monster_service.py`)

`MonsterService` is a process-wide singleton whose mutable state is the class
attributes `monster_file_hash` and `monster_cache`, plus the JSON file on
disk.  The embedding makes that state explicit as `CatalogState`.  JSON
decoding/encoding is the identity on the already-structured monster list
(decoding failures, `StorageError`, are out of scope of the claims), and the
SHA-256 hexdigest is modelled collision-free by the injective constructor
`FileHash.of`; the empty-string sentinel `''` is `FileHash.empty`, which is
never a hexdigest. -/

/-- The fields of `Monster` the core reads: the unique `name`,
`hp.hit_dice`, and `challenge.xp` (a Python float holding an integral XP
value, on which float arithmetic is exact). -/
structure Challenge where
  xp : Int
deriving DecidableEq, Repr

structure HitPoints where
  hit_dice : String
deriving DecidableEq, Repr

structure Monster where
  name : String
  hp : HitPoints
  challenge : Challenge
deriving DecidableEq, Repr

/-- A SHA-256 hexdigest of file content, or the `''` sentinel. -/
inductive FileHash
  | empty
  | of (content : List Monster)
deriving DecidableEq, Repr

/-- The mutable state of the `MonsterService` singleton together with the
backing `monsters.json` file. -/
structure CatalogState where
  file : List Monster
  monster_cache : Option (List Monster)
  monster_file_hash : FileHash
deriving DecidableEq, Repr

/-- `MonsterService.__load_monsters_from_file` (with `ignore_cache=False`,
the only way it is called): hash the file; if the hash equals the recorded
one and a cache is present, return the cache; otherwise record the new hash,
parse the file, and replace the cache.  The third component records whether
the JSON parser ran. -/
def load_monsters_from_file (s : CatalogState) : List Monster × CatalogState × Bool :=
  let currentHash := FileHash.of s.file
  match s.monster_cache with
  | some cached =>
    if s.monster_file_hash = currentHash then (cached, s, false)
    else (s.file, { s with monster_file_hash := currentHash,
                           monster_cache := some s.file }, true)
  | none =>
    (s.file, { s with monster_file_hash := currentHash,
                      monster_cache := some s.file }, true)

/-- `MonsterService.__save_monsters_to_file`: reset the recorded hash to the
`''` sentinel, then overwrite the file.  The in-memory cache is not updated. -/
def save_monsters_to_file (monsters : List Monster) (s : CatalogState) : CatalogState :=
  { s with monster_file_hash := FileHash.empty, file := monsters }

/-- `MonsterService.load_monsters`. -/
def load_monsters (s : CatalogState) : List Monster × CatalogState :=
  let (ms, s1, _) := load_monsters_from_file s
  (ms, s1)

/-- `MonsterService.load_monster`: linear scan, first name match, `None` if
absent. -/
def load_monster (monster_name : String) (s : CatalogState) :
    Option Monster × CatalogState :=
  let (ms, s1, _) := load_monsters_from_file s
  (ms.find? (fun m => m.name == monster_name), s1)

/-- `MonsterService.create_monster`. -/
def create_monster (monster : Monster) (s : CatalogState) : Bool × CatalogState :=
  let (ms, s1, _) := load_monsters_from_file s
  if ms.any (fun m => m.name == monster.name) then (false, s1)
  else (true, save_monsters_to_file (ms ++ [monster]) s1)

/-- Replace the first entry whose name matches, as the indexed loop in
`update_monster` does. -/
def replaceFirst : List Monster → String → Monster → List Monster
  | [], _, _ => []
  | x :: xs, n, m => if x.name == n then m :: xs else x :: replaceFirst xs n m

/-- `MonsterService.update_monster`. -/
def update_monster (monster_name : String) (monster : Monster) (s : CatalogState) :
    Bool × CatalogState :=
  let (ms, s1, _) := load_monsters_from_file s
  if ms.any (fun m => m.name == monster_name) then
    (true, save_monsters_to_file (replaceFirst ms monster_name monster) s1)
  else (false, s1)

/-- `MonsterService.delete_monster`: filters and saves unconditionally. -/
def delete_monster (monster_name : String) (s : CatalogState) : Bool × CatalogState :=
  let (ms, s1, _) := load_monsters_from_file s
  let remaining := ms.filter (fun m => !(m.name == monster_name))
  (remaining.length < ms.length, save_monsters_to_file remaining s1)

/-! ## Encounter engine (`backend/app/services/encounter_service.py`) -/

/-- `EncounterDifficulty` (`backend/app/core/types.py`). -/
inductive EncounterDifficulty
  | EASY
  | MEDIUM
  | HARD
  | DEADLY
deriving DecidableEq, Repr

/-- `EncounterGenerationRequest` (`backend/app/models/encounter.py`).
`monsters` is a `dict[str, int]`; Python dicts iterate in insertion order, so
it is modelled as an association list in that order. -/
structure EncounterGenerationRequest where
  character_levels : List Int
  difficulty : EncounterDifficulty
  monsters : List (String × Nat)
deriving DecidableEq, Repr

/-- `EncounterMonster` (`backend/app/models/encounter.py`). -/
structure EncounterMonster where
  name : String
  initiative : Nat
  hp : Int
deriving DecidableEq, Repr

/-- The `party_difficulty_thresholds` dict
`{"easy": _, "medium": _, "hard": _, "deadly": _}`. -/
structure PartyThresholds where
  easy : Nat
  medium : Nat
  hard : Nat
  deadly : Nat
deriving DecidableEq, Repr

/-- `EncounterGenerationResult` (`backend/app/models/encounter.py`).
`monster_xp_total` holds the exact value of the Python float accumulation of
the integral XP values. -/
structure EncounterGenerationResult where
  monsters : List EncounterMonster
  monster_xp_total : Int
  monster_xp_with_modifiers : Int
  difficulty_rating : EncounterDifficulty
  party_difficulty_thresholds : PartyThresholds
deriving DecidableEq, Repr

/-- `_LEVEL_THRESHOLDS.get(level, (0, 0, 0, 0))`
(`encounter_service.py` lines 13-34 and 102). -/
def LEVEL_THRESHOLDS (level : Int) : Nat × Nat × Nat × Nat :=
  if level = 1 then (25, 50, 75, 100)
  else if level = 2 then (50, 100, 150, 200)
  else if level = 3 then (75, 150, 225, 400)
  else if level = 4 then (125, 250, 375, 500)
  else if level = 5 then (250, 500, 750, 1100)
  else if level = 6 then (300, 600, 900, 1400)
  else if level = 7 then (350, 750, 1100, 1700)
  else if level = 8 then (450, 900, 1400, 2100)
  else if level = 9 then (550, 1100, 1600, 2400)
  else if level = 10 then (600, 1200, 1900, 2800)
  else if level = 11 then (800, 1600, 2400, 3600)
  else if level = 12 then (1000, 2000, 3000, 4500)
  else if level = 13 then (1100, 2200, 3400, 5100)
  else if level = 14 then (1250, 2500, 3800, 5700)
  else if level = 15 then (1400, 2800, 4300, 6400)
  else if level = 16 then (1600, 3200, 4800, 7200)
  else if level = 17 then (2000, 3900, 5900, 8800)
  else if level = 18 then (2100, 4200, 6300, 9500)
  else if level = 19 then (2400, 4900, 7300, 10900)
  else if level = 20 then (2800, 5700, 8500, 12700)
  else (0, 0, 0, 0)

/-- `EncounterService.__calculate_party_thresholds` (lines 104-112): running
element-wise sums over the levels. -/
def calculate_party_thresholds (levels : List Int) : PartyThresholds :=
  levels.foldl
    (fun acc l =>
      let t := LEVEL_THRESHOLDS l
      ⟨acc.easy + t.1, acc.medium + t.2.1, acc.hard + t.2.2.1, acc.deadly + t.2.2.2⟩)
    ⟨0, 0, 0, 0⟩

/-- `EncounterService.__assess_encounter_difficulty` (lines 114-125). -/
def assess_encounter_difficulty (adjusted_monster_xp : Int) (levels : List Int) :
    EncounterDifficulty :=
  let t := calculate_party_thresholds levels
  if adjusted_monster_xp < (t.easy : Int) then .EASY
  else if adjusted_monster_xp < (t.medium : Int) then .EASY
  else if adjusted_monster_xp < (t.hard : Int) then .MEDIUM
  else if adjusted_monster_xp < (t.deadly : Int) then .HARD
  else .DEADLY

/-- Division of an integer by a positive natural with truncation toward
zero: Python `int()` applied to the exactly represented float quotient. -/
def pyIntDiv (a : Int) (b : Nat) : Int :=
  if 0 ≤ a then a / (b : Int) else -((-a) / (b : Int))

/-- Twice the multiplier chosen by the `if`/`elif` chain of
`EncounterService.__calculate_adjusted_xp` (lines 87-98): doubling makes the
half-step multipliers integral. -/
def doubledMultiplier (num_monsters : Nat) : Int :=
  if num_monsters = 1 then 2
  else if num_monsters = 2 then 3
  else if 3 ≤ num_monsters ∧ num_monsters ≤ 6 then 4
  else if 7 ≤ num_monsters ∧ num_monsters ≤ 10 then 5
  else if 11 ≤ num_monsters ∧ num_monsters ≤ 14 then 6
  else 8

/-- `EncounterService.__calculate_adjusted_xp` (lines 86-99):
`int(total_xp * multiplier)`, the float product carried out exactly in
doubled units.  The `else` branch of the chain ("15 or more") is also taken
for `num_monsters = 0`. -/
def calculate_adjusted_xp (total_xp : Int) (num_monsters : Nat) : Int :=
  pyIntDiv (total_xp * doubledMultiplier num_monsters) 2

/-- The errors `generate_encounter` can raise.  The code contains no
`MonsterNotFound` exception class; a missing catalog entry makes
`__calculate_total_xp` (or `__calculate_initiative_and_hp`) dereference the
`None` returned by `load_monster`, raising `AttributeError`.
`MonsterNotFound` is included as the error the spec's taxonomy (§7) names,
so that the claim about it is statable; no code path produces it. -/
inductive GenError
  | attributeErrorNone
  | invalidHitDice (e : HitDiceError)
  | monsterNotFound (name : String)
deriving DecidableEq, Repr

/-- `EncounterService.__calculate_total_xp` (lines 79-84): float-accumulates
`challenge.xp` over the expanded instance list, loading each by name.  A
missing name raises `AttributeError` (`m.challenge` on `None`); the catalog
state mutated so far by the loads survives the raise, so the state is
returned alongside the error. -/
def calculate_total_xp : List String → CatalogState → (Except GenError Int) × CatalogState
  | [], s => (.ok 0, s)
  | n :: rest, s =>
    match load_monster n s with
    | (none, s1) => (.error .attributeErrorNone, s1)
    | (some m, s1) =>
      match calculate_total_xp rest s1 with
      | (.error e, s2) => (.error e, s2)
      | (.ok acc, s2) => (.ok (m.challenge.xp + acc), s2)

/-- `EncounterService.__calculate_initiative_and_hp` (lines 71-77): per
instance, draw initiative `randint(1, 20)`, load the template, parse its
`hp.hit_dice` and evaluate it.  The oracle index is threaded through the
draws in program order. -/
def calculate_initiative_and_hp :
    List String → (Nat → Nat) → Nat → CatalogState →
    (Except GenError (List EncounterMonster)) × CatalogState × Nat
  | [], _, i, s => (.ok [], s, i)
  | n :: rest, g, i, s =>
    let ini := 1 + g i % 20
    match load_monster n s with
    | (none, s1) => (.error .attributeErrorNone, s1, i + 1)
    | (some m, s1) =>
      match parse_hit_dice m.hp.hit_dice with
      | .error e => (.error (.invalidHitDice e), s1, i + 1)
      | .ok expr =>
        let (hpv, i2) := evaluate_hit_dice expr g (i + 1)
        match calculate_initiative_and_hp rest g i2 s1 with
        | (.error e, s2, i3) => (.error e, s2, i3)
        | (.ok ms, s2, i3) => (.ok (⟨n, ini, hpv⟩ :: ms), s2, i3)

/-- `EncounterService.generate_encounter` (lines 51-66): expand the
name→count mapping into placeholders, total and adjust the XP, roll
initiative and hit points, classify, and sum the party thresholds.  A raise
propagates to the caller while the singleton catalog state persists. -/
def generate_encounter (request : EncounterGenerationRequest) (g : Nat → Nat)
    (s : CatalogState) : (Except GenError EncounterGenerationResult) × CatalogState :=
  let names := request.monsters.flatMap (fun nc => List.replicate nc.2 nc.1)
  match calculate_total_xp names s with
  | (.error e, s1) => (.error e, s1)
  | (.ok total_monster_xp, s1) =>
    let adjusted_monster_xp := calculate_adjusted_xp total_monster_xp names.length
    match calculate_initiative_and_hp names g 0 s1 with
    | (.error e, s2, _) => (.error e, s2)
    | (.ok ms, s2, _) =>
      (.ok { monsters := ms,
             monster_xp_total := total_monster_xp,
             monster_xp_with_modifiers := adjusted_monster_xp,
             difficulty_rating :=
               assess_encounter_difficulty adjusted_monster_xp request.character_levels,
             party_difficulty_thresholds :=
               calculate_party_thresholds request.character_levels }, s2)

/-! ## Concrete inputs used in witnesses and counterexamples -/

def goblin : Monster := ⟨"Goblin", ⟨"2d6"⟩, ⟨50⟩⟩

/-- A catalog whose file holds the goblin but whose cache is cold. -/
def goblinCatalog : CatalogState := ⟨[goblin], none, FileHash.empty⟩

/-- The catalog after one read of `goblinCatalog`. -/
def goblinCatalogLoaded : CatalogState := ⟨[goblin], some [goblin], FileHash.of [goblin]⟩

/-- The spec's §8 example request: four level-3 characters, four goblins. -/
def goblinRequest : EncounterGenerationRequest := ⟨[3, 3, 3, 3], .MEDIUM, [("Goblin", 4)]⟩

/-- The result of `goblinRequest` against `goblinCatalog` under the all-zero
oracle: initiative `1 + 0 % 20 = 1`, hp `max 1 (2 · (1 + 0 % 6) + 0) = 2`. -/
def goblinResult : EncounterGenerationResult :=
  ⟨List.replicate 4 ⟨"Goblin", 1, 2⟩, 200, 400, .EASY, ⟨300, 600, 900, 1600⟩⟩

/-- A request for a monster that is not in `goblinCatalog`. -/
def ghostRequest : EncounterGenerationRequest := ⟨[1], .MEDIUM, [("Ghost", 1)]⟩

/-! ## Catalog lemmas -/

theorem create_monster_eq (m : Monster) (s : CatalogState) :
    create_monster m s =
      (if ((load_monsters_from_file s).1.any (fun x => x.name == m.name)) then
         (false, (load_monsters_from_file s).2.1)
       else (true, save_monsters_to_file ((load_monsters_from_file s).1 ++ [m])
              (load_monsters_from_file s).2.1)) := rfl

theorem update_monster_eq (n : String) (m : Monster) (s : CatalogState) :
    update_monster n m s =
      (if ((load_monsters_from_file s).1.any (fun x => x.name == n)) then
         (true, save_monsters_to_file (replaceFirst (load_monsters_from_file s).1 n m)
                  (load_monsters_from_file s).2.1)
       else (false, (load_monsters_from_file s).2.1)) := rfl

theorem delete_monster_eq (n : String) (s : CatalogState) :
    delete_monster n s =
      (decide (((load_monsters_from_file s).1.filter (fun x => !(x.name == n))).length <
          (load_monsters_from_file s).1.length),
       save_monsters_to_file ((load_monsters_from_file s).1.filter (fun x => !(x.name == n)))
         (load_monsters_from_file s).2.1) := rfl

theorem load_monsters_from_file_file (s : CatalogState) :
    (load_monsters_from_file s).2.1.file = s.file := by
  unfold load_monsters_from_file
  cases hc : s.monster_cache with
  | none => rfl
  | some c =>
    dsimp only
    by_cases hh : s.monster_file_hash = FileHash.of s.file
    · rw [if_pos hh]
    · rw [if_neg hh]

/-- Claim C2: `__load_monsters_from_file` returns the cached list without
parsing exactly when the current content hash equals the recorded one and a
cache is present, and otherwise re-parses, replaces the cache, and records
the new hash; every write performed by create/update/delete resets the
recorded hash to the `''` sentinel, after which the next load re-parses and
returns the new file content; and two consecutive loads with no intervening
write return the same list, the second one from the cache. -/
theorem catalog_cache_coherence :
    (∀ s : CatalogState,
       ((load_monsters_from_file s).2.2 = false ↔
         (s.monster_file_hash = FileHash.of s.file ∧ s.monster_cache ≠ none)) ∧
       ((load_monsters_from_file s).2.2 = false →
         s.monster_cache = some (load_monsters_from_file s).1 ∧
         (load_monsters_from_file s).2.1 = s) ∧
       ((load_monsters_from_file s).2.2 = true →
         (load_monsters_from_file s).1 = s.file ∧
         (load_monsters_from_file s).2.1 =
           { file := s.file, monster_cache := some s.file,
             monster_file_hash := FileHash.of s.file })) ∧
    (∀ (m : Monster) (s : CatalogState), (create_monster m s).1 = true →
       (create_monster m s).2.monster_file_hash = FileHash.empty) ∧
    (∀ (n : String) (m : Monster) (s : CatalogState), (update_monster n m s).1 = true →
       (update_monster n m s).2.monster_file_hash = FileHash.empty) ∧
    (∀ (n : String) (s : CatalogState),
       (delete_monster n s).2.monster_file_hash = FileHash.empty) ∧
    (∀ s : CatalogState, s.monster_file_hash = FileHash.empty →
       (load_monsters_from_file s).2.2 = true ∧
       (load_monsters_from_file s).1 = s.file) ∧
    (∀ s : CatalogState,
       load_monsters_from_file (load_monsters_from_file s).2.1 =
         ((load_monsters_from_file s).1, (load_monsters_from_file s).2.1, false)) := by
  refine ⟨?_, ?_, ?_, ?_, ?_, ?_⟩
  · intro s
    rcases s with ⟨file, cache, hash⟩
    cases cache with
    | none => simp [load_monsters_from_file]
    | some c =>
      by_cases hh : hash = FileHash.of file
      · simp [load_monsters_from_file, hh]
      · simp [load_monsters_from_file, hh]
  · intro m s h
    rw [create_monster_eq] at h ⊢
    by_cases hany : (load_monsters_from_file s).1.any (fun x => x.name == m.name)
    · rw [if_pos hany] at h
      cases h
    · rw [if_neg hany]
      rfl
  · intro n m s h
    rw [update_monster_eq] at h ⊢
    by_cases hany : (load_monsters_from_file s).1.any (fun x => x.name == n)
    · rw [if_pos hany]
      rfl
    · rw [if_neg hany] at h
      cases h
  · intro n s
    rw [delete_monster_eq]
    rfl
  · intro s h
    rcases s with ⟨file, cache, hash⟩
    cases cache with
    | none => simp [load_monsters_from_file]
    | some c =>
      simp only at h
      subst h
      simp [load_monsters_from_file]
  · intro s
    rcases s with ⟨file, cache, hash⟩
    cases cache with
    | none => simp [load_monsters_from_file]
    | some c =>
      by_cases hh : hash = FileHash.of file
      · simp [load_monsters_from_file, hh]
      · simp [load_monsters_from_file, hh]

theorem catalog_cache_coherence_witness :
    ((load_monsters_from_file goblinCatalogLoaded).2.2 = false ∧
     goblinCatalogLoaded.monster_cache = some (load_monsters_from_file goblinCatalogLoaded).1 ∧
     (load_monsters_from_file goblinCatalogLoaded).2.1 = goblinCatalogLoaded) ∧
    ((create_monster ⟨"Orc", ⟨"1d8"⟩, ⟨100⟩⟩ goblinCatalog).1 = true ∧
     (create_monster ⟨"Orc", ⟨"1d8"⟩, ⟨100⟩⟩ goblinCatalog).2.monster_file_hash =
       FileHash.empty) ∧
    ((update_monster "Goblin" goblin goblinCatalog).1 = true ∧
     (update_monster "Goblin" goblin goblinCatalog).2.monster_file_hash = FileHash.empty) ∧
    (delete_monster "Goblin" goblinCatalog).2.monster_file_hash = FileHash.empty ∧
    (goblinCatalog.monster_file_hash = FileHash.empty ∧
     (load_monsters_from_file goblinCatalog).2.2 = true ∧
     (load_monsters_from_file goblinCatalog).1 = goblinCatalog.file) ∧
    load_monsters_from_file (load_monsters_from_file goblinCatalog).2.1 =
      ((load_monsters_from_file goblinCatalog).1,
       (load_monsters_from_file goblinCatalog).2.1, false) :=
  ⟨⟨by decide, ((catalog_cache_coherence.1 goblinCatalogLoaded).2.1 (by decide)).1,
    ((catalog_cache_coherence.1 goblinCatalogLoaded).2.1 (by decide)).2⟩,
   ⟨by decide, catalog_cache_coherence.2.1 ⟨"Orc", ⟨"1d8"⟩, ⟨100⟩⟩ goblinCatalog (by decide)⟩,
   ⟨by decide, catalog_cache_coherence.2.2.1 "Goblin" goblin goblinCatalog (by decide)⟩,
   catalog_cache_coherence.2.2.2.1 "Goblin" goblinCatalog,
   ⟨by decide, catalog_cache_coherence.2.2.2.2.1 goblinCatalog (by decide)⟩,
   catalog_cache_coherence.2.2.2.2.2 goblinCatalog⟩

/-- Claim C9 counterexample: with the goblin already in the file but a cold
cache, a duplicate `create_monster` returns `false` yet the internal read
has changed the recorded hash from the `''` sentinel to the file hash and
filled the cache, refuting "cache and recorded hash untouched". -/
theorem create_monster_duplicate_counterexample :
    (create_monster goblin goblinCatalog).1 = false ∧
    goblinCatalog.monster_file_hash = FileHash.empty ∧
    (create_monster goblin goblinCatalog).2.monster_file_hash = FileHash.of [goblin] ∧
    goblinCatalog.monster_cache = none ∧
    (create_monster goblin goblinCatalog).2.monster_cache = some [goblin] := by
  decide

/-- Claim C9 (amended): a duplicate `create_monster` returns `false` without
raising and performs no file write (the post-state is exactly the post-read
state, whose file equals the original file); the internal read may still
refresh the cache and recorded hash to mirror the current file.  Otherwise
it appends the monster, persists (resetting the recorded hash), and returns
`true`. -/
theorem create_monster_duplicate_amended :
    ∀ (m : Monster) (s : CatalogState),
      ((load_monsters_from_file s).1.any (fun x => x.name == m.name) = true →
         create_monster m s = (false, (load_monsters_from_file s).2.1) ∧
         (create_monster m s).2.file = s.file) ∧
      ((load_monsters_from_file s).1.any (fun x => x.name == m.name) = false →
         (create_monster m s).1 = true ∧
         (create_monster m s).2.file = (load_monsters_from_file s).1 ++ [m] ∧
         (create_monster m s).2.monster_file_hash = FileHash.empty) := by
  intro m s
  constructor
  · intro hany
    rw [create_monster_eq, if_pos hany]
    exact ⟨rfl, load_monsters_from_file_file s⟩
  · intro hany
    rw [create_monster_eq, if_neg (by simp [hany])]
    exact ⟨rfl, rfl, rfl⟩

theorem create_monster_duplicate_amended_witness :
    ((load_monsters_from_file goblinCatalog).1.any
        (fun x => x.name == goblin.name) = true ∧
     create_monster goblin goblinCatalog =
       (false, (load_monsters_from_file goblinCatalog).2.1) ∧
     (create_monster goblin goblinCatalog).2.file = goblinCatalog.file) ∧
    ((load_monsters_from_file goblinCatalogLoaded).1.any
        (fun x => x.name == ("Orc" : String)) = false ∧
     (create_monster ⟨"Orc", ⟨"1d8"⟩, ⟨100⟩⟩ goblinCatalogLoaded).1 = true) :=
  ⟨⟨by decide,
    ((create_monster_duplicate_amended goblin goblinCatalog).1 (by decide)).1,
    ((create_monster_duplicate_amended goblin goblinCatalog).1 (by decide)).2⟩,
   ⟨by decide,
    ((create_monster_duplicate_amended ⟨"Orc", ⟨"1d8"⟩, ⟨100⟩⟩ goblinCatalogLoaded).2
      (by decide)).1⟩⟩

/-! ## Parse-loop lemmas -/

theorem parseLoop_ok_iff (ts : List HitDiceToken) : ∀ (acc : List DiePool) (m : Int),
    (∃ r, parseLoop ts acc m = Except.ok r) ↔ ∀ t ∈ ts, badToken t = false := by
  induction ts with
  | nil =>
    intro acc m
    simp [parseLoop]
  | cons t ts ih =>
    intro acc m
    cases t with
    | dice neg c f =>
      by_cases h0 : c = 0 ∨ f = 0
      · simp only [parseLoop, if_pos h0]
        constructor
        · rintro ⟨r, hr⟩; cases hr
        · intro hall
          have := hall (.dice neg c f) (by simp)
          simp [badToken] at this
          omega
      · by_cases hneg : neg
        · simp only [parseLoop, if_neg h0]
          rw [if_pos (by simpa using hneg)]
          constructor
          · rintro ⟨r, hr⟩; cases hr
          · intro hall
            have := hall (.dice neg c f) (List.mem_cons_self _ _)
            simp [badToken, hneg] at this
        · simp only [parseLoop, if_neg h0]
          rw [if_neg (by simpa using hneg)]
          rw [ih (acc ++ [(⟨c, ⟨f⟩⟩ : DiePool)]) m]
          constructor
          · intro hall u hu
            rcases List.mem_cons.1 hu with rfl | hu2
            · simp only [badToken, Bool.or_eq_false_iff, beq_eq_false_iff_ne]
              refine ⟨⟨by simpa using hneg, ?_⟩, ?_⟩ <;> omega
            · exact hall u hu2
          · intro hall u hu
            exact hall u (List.mem_cons_of_mem _ hu)
    | num v =>
      simp only [parseLoop]
      rw [ih acc (m + v)]
      constructor
      · intro hall u hu
        rcases List.mem_cons.1 hu with rfl | hu2
        · rfl
        · exact hall u hu2
      · intro hall u hu
        exact hall u (List.mem_cons_of_mem _ hu)

theorem parseLoop_ok_eq (ts : List HitDiceToken) :
    ∀ (acc : List DiePool) (m : Int) (pools : List DiePool) (md : Int),
    parseLoop ts acc m = Except.ok (pools, md) →
    pools = acc ++ tokenPools ts ∧ md = m + tokenModifier ts := by
  induction ts with
  | nil =>
    intro acc m pools md h
    simp only [parseLoop, Except.ok.injEq, Prod.mk.injEq] at h
    simp [tokenPools, tokenModifier, ← h.1, ← h.2]
  | cons t ts ih =>
    intro acc m pools md h
    cases t with
    | dice neg c f =>
      by_cases h0 : c = 0 ∨ f = 0
      · rw [parseLoop, if_pos h0] at h
        cases h
      · by_cases hneg : neg
        · rw [parseLoop, if_neg h0] at h
          rw [if_pos (by simpa using hneg)] at h
          cases h
        · rw [parseLoop, if_neg h0] at h
          rw [if_neg (by simpa using hneg)] at h
          obtain ⟨h1, h2⟩ := ih (acc ++ [⟨c, ⟨f⟩⟩]) m pools md h
          refine ⟨?_, ?_⟩
          · rw [h1]
            simp [tokenPools]
          · rw [h2]
            simp [tokenModifier]
    | num v =>
      rw [parseLoop] at h
      obtain ⟨h1, h2⟩ := ih acc (m + v) pools md h
      refine ⟨?_, ?_⟩
      · rw [h1]
        simp [tokenPools]
      · rw [h2]
        simp [tokenModifier]
        omega

/-! ## Evaluation lemmas -/

/-- Total number of dice drawn by an expression's pools. -/
def sumCounts (ps : List DiePool) : Nat :=
  (ps.map (fun p => p.count)).sum

/-- Maximal possible roll total of an expression's pools. -/
def sumMaxRoll (ps : List DiePool) : Nat :=
  (ps.map (fun p => p.count * p.die.faces)).sum

theorem rollPools_cons (p : DiePool) (ps : List DiePool) (g : Nat → Nat) (i : Nat) :
    rollPools (p :: ps) g i =
      (rollPool p.count p.die.faces g i + (rollPools ps g (i + p.count)).1,
       (rollPools ps g (i + p.count)).2) := by
  simp only [rollPools]

theorem evaluate_hit_dice_fst (e : HitDiceExpression) (g : Nat → Nat) (i : Nat) :
    (evaluate_hit_dice e g i).1 =
      max 1 (((rollPools e.dice g i).1 : Int) + e.modifier) := by
  simp only [evaluate_hit_dice]

theorem rollDie_bounds (f : Nat) (g : Nat → Nat) (j : Nat) (hf : 1 ≤ f) :
    1 ≤ rollDie f g j ∧ rollDie f g j ≤ f := by
  unfold rollDie
  have := Nat.mod_lt (g j) (show 0 < f by omega)
  omega

theorem rollPool_bounds (c f : Nat) (g : Nat → Nat) (hf : 1 ≤ f) :
    ∀ i, c ≤ rollPool c f g i ∧ rollPool c f g i ≤ c * f := by
  induction c with
  | zero => intro i; simp [rollPool]
  | succ c ih =>
    intro i
    have hd := rollDie_bounds f g i hf
    have hr := ih (i + 1)
    simp only [rollPool]
    constructor
    · omega
    · have : (c + 1) * f = f + c * f := by ring
      omega

theorem rollPools_bounds (ps : List DiePool) (g : Nat → Nat)
    (h : ∀ p ∈ ps, 1 ≤ p.die.faces) :
    ∀ i, sumCounts ps ≤ (rollPools ps g i).1 ∧ (rollPools ps g i).1 ≤ sumMaxRoll ps := by
  induction ps with
  | nil => intro i; simp [rollPools, sumCounts, sumMaxRoll]
  | cons p ps ih =>
    intro i
    have hp := rollPool_bounds p.count p.die.faces g
      (h p (List.mem_cons_self _ _)) i
    have hr := ih (fun q hq => h q (List.mem_cons_of_mem _ hq)) (i + p.count)
    rw [rollPools_cons]
    simp only [sumCounts, sumMaxRoll, List.map_cons, List.sum_cons] at *
    omega

theorem parse_failure_aux (s : String) :
    (∃ e, parse_hit_dice s = .error e) ↔
      (removeSpaces (pyStrip s.data) = [] ∨
       tokenize (removeSpaces (pyStrip s.data)) = [] ∨
       ∃ t ∈ tokenize (removeSpaces (pyStrip s.data)), badToken t = true) := by
  by_cases h1 : removeSpaces (pyStrip s.data) = []
  · exact iff_of_true ⟨.emptyExpression, by simp [parse_hit_dice, h1]⟩ (Or.inl h1)
  · by_cases h2 : tokenize (removeSpaces (pyStrip s.data)) = []
    · exact iff_of_true ⟨.invalidExpression, by simp [parse_hit_dice, h1, h2]⟩
        (Or.inr (Or.inl h2))
    · cases hp : parseLoop (tokenize (removeSpaces (pyStrip s.data))) [] 0 with
      | error e =>
        have hno : ¬ ∀ t ∈ tokenize (removeSpaces (pyStrip s.data)), badToken t = false := by
          intro hall
          obtain ⟨r, hr⟩ :=
            (parseLoop_ok_iff (tokenize (removeSpaces (pyStrip s.data))) [] 0).mpr hall
          rw [hp] at hr
          cases hr
        push_neg at hno
        obtain ⟨t, ht, hbad⟩ := hno
        exact iff_of_true ⟨e, by simp [parse_hit_dice, h1, h2, hp]⟩
          (Or.inr (Or.inr ⟨t, ht, by simpa using hbad⟩))
      | ok r =>
        obtain ⟨pools, md⟩ := r
        apply iff_of_false
        · rintro ⟨e, he⟩
          simp [parse_hit_dice, h1, h2, hp] at he
        · rintro (hc | hc | ⟨t, ht, hbad⟩)
          · exact h1 hc
          · exact h2 hc
          · have hall :=
              (parseLoop_ok_iff (tokenize (removeSpaces (pyStrip s.data))) [] 0).mp
                ⟨(pools, md), hp⟩
            rw [hall t ht] at hbad
            cases hbad

/-- Claim C7: `parse_hit_dice` raises a `ValueError` (the spec's
`InvalidExpression`) exactly when, after stripping whitespace and removing
spaces, the input is empty, or the `findall` scan yields no tokens, or some
dice token carries a `-` sign or has a zero count or faces; in particular
`parse("")`, `parse("abc")` and `parse("-2d6")` all fail. -/
theorem parse_hit_dice_failure_conditions :
    (∀ s : String, (∃ e, parse_hit_dice s = .error e) ↔
      (removeSpaces (pyStrip s.data) = [] ∨
       tokenize (removeSpaces (pyStrip s.data)) = [] ∨
       ∃ t ∈ tokenize (removeSpaces (pyStrip s.data)), badToken t = true)) ∧
    parse_hit_dice "" = .error .emptyExpression ∧
    parse_hit_dice "abc" = .error .invalidExpression ∧
    parse_hit_dice "-2d6" = .error .negativeDice :=
  ⟨fun s => parse_failure_aux s, by decide, by decide, by decide⟩

/-- Claim C8: whenever `parse_hit_dice` succeeds, the resulting dice pools
are exactly the dice tokens of the scan in input order and the modifier is
the signed sum of its plain-number tokens; in particular `parse("2d6-3")`
succeeds with the single pool `2d6` and modifier `-3`. -/
theorem parse_hit_dice_success_semantics :
    (∀ (s : String) (e : HitDiceExpression), parse_hit_dice s = .ok e →
       e.dice = tokenPools (tokenize (removeSpaces (pyStrip s.data))) ∧
       e.modifier = tokenModifier (tokenize (removeSpaces (pyStrip s.data)))) ∧
    parse_hit_dice "2d6-3" = .ok ⟨[⟨2, ⟨6⟩⟩], -3⟩ := by
  constructor
  · intro s e h
    by_cases h1 : removeSpaces (pyStrip s.data) = []
    · simp [parse_hit_dice, h1] at h
    · by_cases h2 : tokenize (removeSpaces (pyStrip s.data)) = []
      · simp [parse_hit_dice, h1, h2] at h
      · cases hp : parseLoop (tokenize (removeSpaces (pyStrip s.data))) [] 0 with
        | error e2 => simp [parse_hit_dice, h1, h2, hp] at h
        | ok r =>
          obtain ⟨pools, md⟩ := r
          obtain ⟨hpools, hmd⟩ :=
            parseLoop_ok_eq (tokenize (removeSpaces (pyStrip s.data))) [] 0 pools md hp
          simp only [parse_hit_dice] at h
          rw [if_neg h1, if_neg h2, hp] at h
          dsimp only at h
          simp only [Except.ok.injEq] at h
          rw [← h]
          simp only [List.nil_append] at hpools
          simp only [Int.zero_add] at hmd
          exact ⟨hpools, hmd⟩
  · decide

theorem parse_hit_dice_success_semantics_witness :
    parse_hit_dice "2d6-3" = .ok ⟨[⟨2, ⟨6⟩⟩], -3⟩ ∧
    (⟨[⟨2, ⟨6⟩⟩], -3⟩ : HitDiceExpression).dice =
      tokenPools (tokenize (removeSpaces (pyStrip ("2d6-3".data)))) ∧
    (⟨[⟨2, ⟨6⟩⟩], -3⟩ : HitDiceExpression).modifier =
      tokenModifier (tokenize (removeSpaces (pyStrip ("2d6-3".data)))) :=
  ⟨by decide,
   (parse_hit_dice_success_semantics.1 "2d6-3" ⟨[⟨2, ⟨6⟩⟩], -3⟩ (by decide)).1,
   (parse_hit_dice_success_semantics.1 "2d6-3" ⟨[⟨2, ⟨6⟩⟩], -3⟩ (by decide)).2⟩

/-- Claim C3: `evaluate_hit_dice` (modelled from the spec, definition absent
from the sources) sums, for each pool, `count` draws each lying in
`[1, faces]`, adds the flat modifier, and clamps the result at 1; evaluating
the parse of `"1d1"` always yields exactly 1, and a pool-free expression
yields its modifier clamped to at least 1. -/
theorem evaluate_hit_dice_spec :
    (∀ (e : HitDiceExpression) (g : Nat → Nat) (i : Nat),
       (evaluate_hit_dice e g i).1 =
         max 1 (((rollPools e.dice g i).1 : Int) + e.modifier) ∧
       1 ≤ (evaluate_hit_dice e g i).1 ∧
       (e.dice = [] → (evaluate_hit_dice e g i).1 = max 1 e.modifier)) ∧
    (∀ (f : Nat) (g : Nat → Nat) (j : Nat), 1 ≤ f →
       1 ≤ rollDie f g j ∧ rollDie f g j ≤ f) ∧
    (∀ (e : HitDiceExpression) (g : Nat → Nat) (i : Nat),
       (∀ p ∈ e.dice, 1 ≤ p.die.faces) →
       sumCounts e.dice ≤ (rollPools e.dice g i).1 ∧
       (rollPools e.dice g i).1 ≤ sumMaxRoll e.dice) ∧
    parse_hit_dice "1d1" = .ok ⟨[⟨1, ⟨1⟩⟩], 0⟩ ∧
    (∀ (g : Nat → Nat) (i : Nat), (evaluate_hit_dice ⟨[⟨1, ⟨1⟩⟩], 0⟩ g i).1 = 1) := by
  refine ⟨?_, rollDie_bounds, fun e g i h => rollPools_bounds e.dice g h i, by decide, ?_⟩
  · intro e g i
    refine ⟨evaluate_hit_dice_fst e g i, ?_, ?_⟩
    · rw [evaluate_hit_dice_fst]
      exact le_max_left 1 _
    · intro hnil
      rw [evaluate_hit_dice_fst, hnil]
      simp [rollPools]
  · intro g i
    rw [evaluate_hit_dice_fst]
    simp [rollPools_cons, rollPools, rollPool, rollDie, Nat.mod_one]

theorem evaluate_hit_dice_spec_witness :
    ((evaluate_hit_dice ⟨[], -5⟩ (fun _ => 0) 0).1 =
        max 1 (⟨[], -5⟩ : HitDiceExpression).modifier) ∧
    (1 ≤ 6 ∧ (1 ≤ rollDie 6 (fun _ => 0) 0 ∧ rollDie 6 (fun _ => 0) 0 ≤ 6)) ∧
    ((∀ p ∈ (⟨[⟨2, ⟨6⟩⟩], -3⟩ : HitDiceExpression).dice, 1 ≤ p.die.faces) ∧
      sumCounts (⟨[⟨2, ⟨6⟩⟩], -3⟩ : HitDiceExpression).dice ≤
        (rollPools (⟨[⟨2, ⟨6⟩⟩], -3⟩ : HitDiceExpression).dice (fun _ => 0) 0).1 ∧
      (rollPools (⟨[⟨2, ⟨6⟩⟩], -3⟩ : HitDiceExpression).dice (fun _ => 0) 0).1 ≤
        sumMaxRoll (⟨[⟨2, ⟨6⟩⟩], -3⟩ : HitDiceExpression).dice) ∧
    (evaluate_hit_dice ⟨[⟨1, ⟨1⟩⟩], 0⟩ (fun _ => 0) 0).1 = 1 :=
  ⟨(evaluate_hit_dice_spec.1 ⟨[], -5⟩ (fun _ => 0) 0).2.2 rfl,
   ⟨by decide, evaluate_hit_dice_spec.2.1 6 (fun _ => 0) 0 (by decide)⟩,
   ⟨by decide, evaluate_hit_dice_spec.2.2.1 ⟨[⟨2, ⟨6⟩⟩], -3⟩ (fun _ => 0) 0 (by decide)⟩,
   evaluate_hit_dice_spec.2.2.2.2 (fun _ => 0) 0⟩

/-! ## Adjusted-XP claims -/

/-- The claim's real-valued step-function multiplier (spec §4.4 step 4),
defined on total instance counts `n ≥ 1`. -/
def multiplierSpec (n : Nat) : Rat :=
  if n = 1 then 1
  else if n = 2 then 3 / 2
  else if 3 ≤ n ∧ n ≤ 6 then 2
  else if 7 ≤ n ∧ n ≤ 10 then 5 / 2
  else if 11 ≤ n ∧ n ≤ 14 then 3
  else if 15 ≤ n then 4
  else 0

/-- Truncation toward zero of a rational, the claim-side reading of Python
`int()` on an exactly represented float. -/
def ratTrunc (q : Rat) : Int :=
  if q < 0 then -⌊-q⌋ else ⌊q⌋

theorem ratTrunc_intCast_div_natCast (a : Int) (b : Nat) (hb : 0 < b) :
    ratTrunc ((a : Rat) / (b : Rat)) = pyIntDiv a b := by
  unfold ratTrunc pyIntDiv
  by_cases ha : 0 ≤ a
  · have hq : ¬((a : Rat) / (b : Rat) < 0) := by
      push_neg
      apply div_nonneg
      · exact_mod_cast ha
      · positivity
    rw [if_neg hq, if_pos ha, Rat.floor_intCast_div_natCast]
  · have ha' : a < 0 := by omega
    have hb' : (0 : Rat) < (b : Rat) := by exact_mod_cast hb
    have hq : (a : Rat) / (b : Rat) < 0 :=
      div_neg_of_neg_of_pos (by exact_mod_cast ha') hb'
    rw [if_pos hq, if_neg ha]
    have hneg : -((a : Rat) / (b : Rat)) = ((-a : Int) : Rat) / (b : Rat) := by
      push_cast
      ring
    rw [hneg, Rat.floor_intCast_div_natCast]

/-- Claim C5: for every total XP and instance count `n ≥ 1`,
`__calculate_adjusted_xp` returns the total multiplied by the step-function
multiplier (1, 1.5, 2, 2.5, 3, 4 over the claim's bands), truncated to an
integer; in particular `total_xp = 200`, `n = 4` gives 400. -/
theorem adjusted_xp_step_function :
    (∀ (total_xp : Int) (n : Nat), 1 ≤ n →
       calculate_adjusted_xp total_xp n = ratTrunc ((total_xp : Rat) * multiplierSpec n)) ∧
    calculate_adjusted_xp 200 4 = 400 := by
  constructor
  · intro t n hn
    have key : ∀ k : Int, ratTrunc ((t : Rat) * ((k : Rat) / 2)) = pyIntDiv (t * k) 2 := by
      intro k
      rw [show ((t : Rat) * ((k : Rat) / 2)) =
            (((t * k : Int) : Rat)) / ((2 : Nat) : Rat) by push_cast; ring]
      exact ratTrunc_intCast_div_natCast (t * k) 2 (by norm_num)
    unfold calculate_adjusted_xp doubledMultiplier multiplierSpec
    split_ifs with h1 h2 h3 h4 h5 h6
    · rw [show (1 : Rat) = ((2 : Int) : Rat) / 2 by norm_num]
      exact (key 2).symm
    · rw [show (3 / 2 : Rat) = ((3 : Int) : Rat) / 2 by norm_num]
      exact (key 3).symm
    · rw [show (2 : Rat) = ((4 : Int) : Rat) / 2 by norm_num]
      exact (key 4).symm
    · rw [show (5 / 2 : Rat) = ((5 : Int) : Rat) / 2 by norm_num]
      exact (key 5).symm
    · rw [show (3 : Rat) = ((6 : Int) : Rat) / 2 by norm_num]
      exact (key 6).symm
    · rw [show (4 : Rat) = ((8 : Int) : Rat) / 2 by norm_num]
      exact (key 8).symm
    · omega
  · decide

theorem adjusted_xp_step_function_witness :
    1 ≤ 4 ∧
    calculate_adjusted_xp 200 4 = ratTrunc (((200 : Int) : Rat) * multiplierSpec 4) :=
  ⟨by decide, adjusted_xp_step_function.1 200 4 (by decide)⟩

/-! ## Party-threshold claims -/

/-- The claim-side element-wise sum of per-level threshold rows. -/
def thresholdsRowSum (levels : List Int) : PartyThresholds :=
  ⟨(levels.map (fun l => (LEVEL_THRESHOLDS l).1)).sum,
   (levels.map (fun l => (LEVEL_THRESHOLDS l).2.1)).sum,
   (levels.map (fun l => (LEVEL_THRESHOLDS l).2.2.1)).sum,
   (levels.map (fun l => (LEVEL_THRESHOLDS l).2.2.2)).sum⟩

theorem party_foldl_general (levels : List Int) : ∀ acc : PartyThresholds,
    levels.foldl
      (fun acc l =>
        let t := LEVEL_THRESHOLDS l
        ⟨acc.easy + t.1, acc.medium + t.2.1, acc.hard + t.2.2.1, acc.deadly + t.2.2.2⟩)
      acc =
      ⟨acc.easy + (thresholdsRowSum levels).easy,
       acc.medium + (thresholdsRowSum levels).medium,
       acc.hard + (thresholdsRowSum levels).hard,
       acc.deadly + (thresholdsRowSum levels).deadly⟩ := by
  induction levels with
  | nil =>
    intro acc
    rcases acc with ⟨e, m, h, d⟩
    simp [thresholdsRowSum]
  | cons l ls ih =>
    intro acc
    rw [List.foldl_cons, ih]
    simp only [thresholdsRowSum, List.map_cons, List.sum_cons, PartyThresholds.mk.injEq]
    omega

theorem party_thresholds_eq_rowSum (levels : List Int) :
    calculate_party_thresholds levels = thresholdsRowSum levels := by
  unfold calculate_party_thresholds
  rw [party_foldl_general]
  simp only [Nat.zero_add]

theorem LEVEL_THRESHOLDS_out_of_range (l : Int) (h : l < 1 ∨ 20 < l) :
    LEVEL_THRESHOLDS l = (0, 0, 0, 0) := by
  unfold LEVEL_THRESHOLDS
  repeat rw [if_neg (by omega)]

theorem LEVEL_THRESHOLDS_monotone (l : Int) :
    (LEVEL_THRESHOLDS l).1 ≤ (LEVEL_THRESHOLDS l).2.1 ∧
    (LEVEL_THRESHOLDS l).2.1 ≤ (LEVEL_THRESHOLDS l).2.2.1 ∧
    (LEVEL_THRESHOLDS l).2.2.1 ≤ (LEVEL_THRESHOLDS l).2.2.2 := by
  by_cases hin : 1 ≤ l ∧ l ≤ 20
  · obtain ⟨hlo, hhi⟩ := hin
    interval_cases l <;> decide
  · rw [LEVEL_THRESHOLDS_out_of_range l (by omega)]
    decide

theorem party_thresholds_monotone (levels : List Int) :
    (calculate_party_thresholds levels).easy ≤ (calculate_party_thresholds levels).medium ∧
    (calculate_party_thresholds levels).medium ≤ (calculate_party_thresholds levels).hard ∧
    (calculate_party_thresholds levels).hard ≤ (calculate_party_thresholds levels).deadly := by
  rw [party_thresholds_eq_rowSum]
  unfold thresholdsRowSum
  induction levels with
  | nil => simp
  | cons l ls ih =>
    have hrow := LEVEL_THRESHOLDS_monotone l
    simp only [List.map_cons, List.sum_cons] at ih ⊢
    omega

/-- Claim C6: the party thresholds are the element-wise sums over the levels
of the fixed per-level rows, with levels outside 1-20 contributing all-zero
rows; four level-3 characters at `(75, 150, 225, 400)` sum to
`(300, 600, 900, 1600)`. -/
theorem party_thresholds_elementwise :
    (∀ levels : List Int, calculate_party_thresholds levels = thresholdsRowSum levels) ∧
    (∀ l : Int, l < 1 ∨ 20 < l → LEVEL_THRESHOLDS l = (0, 0, 0, 0)) ∧
    LEVEL_THRESHOLDS 3 = (75, 150, 225, 400) ∧
    calculate_party_thresholds [3, 3, 3, 3] = ⟨300, 600, 900, 1600⟩ :=
  ⟨party_thresholds_eq_rowSum, LEVEL_THRESHOLDS_out_of_range, by decide, by decide⟩

theorem party_thresholds_elementwise_witness :
    ((0 : Int) < 1 ∨ 20 < (0 : Int)) ∧ LEVEL_THRESHOLDS 0 = (0, 0, 0, 0) ∧
    ((21 : Int) < 1 ∨ 20 < (21 : Int)) ∧ LEVEL_THRESHOLDS 21 = (0, 0, 0, 0) :=
  ⟨by decide, party_thresholds_elementwise.2.1 0 (by decide),
   by decide, party_thresholds_elementwise.2.1 21 (by decide)⟩

/-! ## Difficulty-classification claims -/

/-- The claim-side classifier: the highest tier whose threshold has been met
or exceeded, `EASY` both below the easy threshold and between easy and
medium. -/
def highestTierMetOrExceeded (xp : Int) (t : PartyThresholds) : EncounterDifficulty :=
  if (t.deadly : Int) ≤ xp then .DEADLY
  else if (t.hard : Int) ≤ xp then .HARD
  else if (t.medium : Int) ≤ xp then .MEDIUM
  else .EASY

theorem assess_eq_highestTier (xp : Int) (levels : List Int) :
    assess_encounter_difficulty xp levels =
      highestTierMetOrExceeded xp (calculate_party_thresholds levels) := by
  have hmono := party_thresholds_monotone levels
  unfold assess_encounter_difficulty highestTierMetOrExceeded
  dsimp only
  split_ifs <;> first | rfl | (exfalso; omega)

/-- Claim C1: the difficulty returned (by the classifier, and by every
successful `generate_encounter`, on its adjusted XP) is the highest tier
whose summed threshold has been met or exceeded, with `EASY` whenever the
adjusted XP is below the medium threshold — in particular 400 against
`(300, 600, 900, 1600)` is `EASY`. -/
theorem difficulty_classification :
    (∀ (xp : Int) (levels : List Int),
       assess_encounter_difficulty xp levels =
         highestTierMetOrExceeded xp (calculate_party_thresholds levels)) ∧
    (∀ (req : EncounterGenerationRequest) (g : Nat → Nat) (s s2 : CatalogState)
       (r : EncounterGenerationResult),
       generate_encounter req g s = (.ok r, s2) →
       r.difficulty_rating =
         highestTierMetOrExceeded r.monster_xp_with_modifiers
           (calculate_party_thresholds req.character_levels)) ∧
    highestTierMetOrExceeded 400 ⟨300, 600, 900, 1600⟩ = .EASY ∧
    assess_encounter_difficulty 400 [3, 3, 3, 3] = .EASY := by
  refine ⟨assess_eq_highestTier, ?_, by decide, by decide⟩
  intro req g s s2 r h
  unfold generate_encounter at h
  dsimp only at h
  rcases ht : calculate_total_xp
      (req.monsters.flatMap (fun nc => List.replicate nc.2 nc.1)) s with ⟨te, s1⟩
  rw [ht] at h
  cases te with
  | error e => simp at h
  | ok total =>
    dsimp only at h
    rcases hi : calculate_initiative_and_hp
        (req.monsters.flatMap (fun nc => List.replicate nc.2 nc.1)) g 0 s1 with ⟨ri, s2i⟩
    rw [hi] at h
    rcases ri with e2 | ms
    · simp at h
    · simp only [Prod.mk.injEq, Except.ok.injEq] at h
      rw [← h.1]
      exact assess_eq_highestTier _ _

theorem difficulty_classification_witness :
    generate_encounter goblinRequest (fun _ => 0) goblinCatalog =
      (.ok goblinResult, goblinCatalogLoaded) ∧
    goblinResult.difficulty_rating =
      highestTierMetOrExceeded goblinResult.monster_xp_with_modifiers
        (calculate_party_thresholds goblinRequest.character_levels) :=
  ⟨by decide,
   difficulty_classification.2.1 goblinRequest (fun _ => 0) goblinCatalog
     goblinCatalogLoaded goblinResult (by decide)⟩

/-! ## All-zero-threshold classification (implicit claim) -/

theorem thresholds_zero_of_out_of_range (levels : List Int)
    (h : ∀ l ∈ levels, l < 1 ∨ 20 < l) :
    calculate_party_thresholds levels = ⟨0, 0, 0, 0⟩ := by
  rw [party_thresholds_eq_rowSum]
  unfold thresholdsRowSum
  induction levels with
  | nil => rfl
  | cons l ls ih =>
    have hrow := LEVEL_THRESHOLDS_out_of_range l (h l (List.mem_cons_self _ _))
    have hih := ih (fun q hq => h q (List.mem_cons_of_mem _ hq))
    simp only [List.map_cons, List.sum_cons, hrow, PartyThresholds.mk.injEq] at hih ⊢
    omega

theorem assess_deadly_of_zero_thresholds (xp : Int) (levels : List Int)
    (ht : calculate_party_thresholds levels = ⟨0, 0, 0, 0⟩) (hx : 0 ≤ xp) :
    assess_encounter_difficulty xp levels = .DEADLY := by
  unfold assess_encounter_difficulty
  rw [ht]
  dsimp only
  split_ifs <;> first | rfl | omega

/-- A request whose party levels all lie outside 1-20 and whose roster is
empty. -/
def outOfRangeRequest : EncounterGenerationRequest := ⟨[0, 21], .MEDIUM, []⟩

/-- Claim C10 (implicit): with all four summed thresholds zero (empty level
list or every level outside 1-20), the strict `<` comparisons all fail, so
the classifier returns `DEADLY` for every adjusted XP `≥ 0`; in particular an
empty roster generates successfully with adjusted XP 0 and difficulty
`DEADLY`. -/
theorem zero_thresholds_classify_deadly :
    (∀ (xp : Int) (levels : List Int),
       calculate_party_thresholds levels = ⟨0, 0, 0, 0⟩ → 0 ≤ xp →
       assess_encounter_difficulty xp levels = .DEADLY) ∧
    (∀ levels : List Int, (∀ l ∈ levels, l < 1 ∨ 20 < l) →
       calculate_party_thresholds levels = ⟨0, 0, 0, 0⟩) ∧
    (∀ (req : EncounterGenerationRequest) (g : Nat → Nat) (s : CatalogState),
       req.monsters = [] → (∀ l ∈ req.character_levels, l < 1 ∨ 20 < l) →
       (generate_encounter req g s).1 =
         .ok { monsters := [], monster_xp_total := 0, monster_xp_with_modifiers := 0,
               difficulty_rating := .DEADLY,
               party_difficulty_thresholds := ⟨0, 0, 0, 0⟩ }) := by
  refine ⟨assess_deadly_of_zero_thresholds, thresholds_zero_of_out_of_range, ?_⟩
  intro req g s hm hl
  have hnames : req.monsters.flatMap (fun nc => List.replicate nc.2 nc.1) = [] := by
    rw [hm]
    rfl
  have hthr := thresholds_zero_of_out_of_range req.character_levels hl
  have hadj : calculate_adjusted_xp 0 (List.length ([] : List String)) = 0 := by decide
  have hassess : assess_encounter_difficulty 0 req.character_levels = .DEADLY :=
    assess_deadly_of_zero_thresholds 0 req.character_levels hthr (le_refl 0)
  unfold generate_encounter
  rw [hnames]
  dsimp only [calculate_total_xp, calculate_initiative_and_hp]
  rw [hadj, hassess, hthr]

theorem zero_thresholds_classify_deadly_witness :
    (calculate_party_thresholds [0, 21] = ⟨0, 0, 0, 0⟩ ∧
     (0 : Int) ≤ 5 ∧
     assess_encounter_difficulty 5 [0, 21] = .DEADLY) ∧
    (outOfRangeRequest.monsters = [] ∧
     (generate_encounter outOfRangeRequest (fun _ => 0) goblinCatalog).1 =
       .ok { monsters := [], monster_xp_total := 0, monster_xp_with_modifiers := 0,
             difficulty_rating := .DEADLY,
             party_difficulty_thresholds := ⟨0, 0, 0, 0⟩ }) :=
  ⟨⟨by decide, by decide,
    zero_thresholds_classify_deadly.1 5 [0, 21] (by decide) (by decide)⟩,
   ⟨rfl,
    zero_thresholds_classify_deadly.2.2 outOfRangeRequest (fun _ => 0) goblinCatalog rfl
      (by decide)⟩⟩

/-! ## Missing-monster behaviour -/

/-- Claim C4 (code bug): requesting the absent `"Ghost"` makes
`generate_encounter` fail — but with the `AttributeError` from dereferencing
the `None` returned by `load_monster` (surfaced as HTTP 500), not with any
`MonsterNotFound`; no result is produced and the catalog file is unchanged
(the read-side cache refresh is the only state change). -/
theorem missing_monster_attribute_error :
    (generate_encounter ghostRequest (fun _ => 0) goblinCatalog).1 =
      .error .attributeErrorNone ∧
    (generate_encounter ghostRequest (fun _ => 0) goblinCatalog).2.file =
      goblinCatalog.file ∧
    (generate_encounter ghostRequest (fun _ => 0) goblinCatalog).2 =
      goblinCatalogLoaded := by
  decide

end SpellTable
